import Mathlib

/-!
Shallow embedding of `Project Files/Source/ChannelMaster/sidetonegen.c`
(the CMASIO local sidetone generator) and proofs about its envelope state
machine, oscillator and generation entry point.

Conventions of the embedding:
* C `double` values are embedded as real numbers (`ℝ`); envelope values,
  which are quotients of small integers, are additionally tracked in `ℚ`
  so that the envelope state machine is fully computable.
* C `int` values are embedded as `Int`.
* The file-scope globals of sidetonegen.c form one record `SidetoneState`;
  every C function becomes a pure function from (arguments, state) to
  (result, state).
* A possibly-NULL pointer becomes an `Option`; the three callback pointers
  are modelled by the value each callback would return for the current
  block (`none` = callback not registered), since the code calls each at
  most once per generate call.
-/

namespace Sidetone

/-- `FADE_SAMPLES = 48` in sidetonegen.c (1 ms at 48 kHz). -/
def FADE_SAMPLES : Int := 48

/-- The fade-envelope part of the global state: `g_fade_state`
(0 = idle, 1 = fade in, 2 = active/sustain, 3 = fade out) and
`g_fade_counter`. -/
structure EnvState where
  fade_state : Int
  fade_counter : Int
deriving DecidableEq, Repr

/-- One frame of the fade-envelope logic inside the generation loop of
`SidetoneGen_Generate` (the `if (g_fade_state == 1) ... else if ... == 3
... else if ... == 0 ...` block): returns the envelope applied to this
frame together with the updated envelope state. -/
def envStep (s : EnvState) : ℚ × EnvState :=
  if s.fade_state = 1 then
    let envelope : ℚ := (s.fade_counter : ℚ) / (FADE_SAMPLES : ℚ)
    let c := s.fade_counter + 1
    if c ≥ FADE_SAMPLES then (envelope, ⟨2, c⟩) else (envelope, ⟨1, c⟩)
  else if s.fade_state = 3 then
    let envelope : ℚ := 1 - (s.fade_counter : ℚ) / (FADE_SAMPLES : ℚ)
    let c := s.fade_counter + 1
    if c ≥ FADE_SAMPLES then ((0 : ℚ), ⟨0, c⟩) else (envelope, ⟨3, c⟩)
  else if s.fade_state = 0 then ((0 : ℚ), s)
  else ((1 : ℚ), s)

/-- Envelope state after `n` frames of the generation loop. -/
def envAfter (e : EnvState) (n : ℕ) : EnvState :=
  (fun t => (envStep t).2)^[n] e

/-- Envelope value applied at frame `n` (0-indexed) of the generation
loop, starting from envelope state `e`. -/
def envAt (e : EnvState) (n : ℕ) : ℚ :=
  (envStep (envAfter e n)).1

/-- The file-scope globals of sidetonegen.c.  `buffer_allocated` models
`g_buffer != NULL` (the internal scratch buffer is never read or written
by the generation path, so only its null-ness matters). -/
structure SidetoneState where
  tx_active : Int
  phase : ℝ
  fade_state : Int
  fade_counter : Int
  buffer_allocated : Bool
  blocksize : Int
  getEnabled : Option Int
  getFreq : Option Int
  getVolume : Option ℝ

/-- The envelope-machine part of the global state. -/
def envOf (s : SidetoneState) : EnvState :=
  ⟨s.fade_state, s.fade_counter⟩

/-- `SidetoneGen_SetTXActive` from sidetonegen.c. -/
def SidetoneGen_SetTXActive (tx_active : Int) (s : SidetoneState) : SidetoneState :=
  if s.tx_active = tx_active then s
  else if tx_active = 1 then
    { s with tx_active := tx_active, phase := 0, fade_state := 1, fade_counter := 0 }
  else
    { s with tx_active := tx_active, fade_state := 3, fade_counter := 0 }

/-- `SidetoneGen_IsActive` from sidetonegen.c. -/
def SidetoneGen_IsActive (s : SidetoneState) : Int :=
  if s.tx_active = 0 then 0
  else
    match s.getEnabled with
    | some e => e
    | none => 0

/-- The phase update at the end of each loop iteration:
`g_phase += delta_phase; if (g_phase >= 2π) g_phase -= 2π;`. -/
noncomputable def stepPhase (delta p : ℝ) : ℝ :=
  if p + delta ≥ 2 * Real.pi then p + delta - 2 * Real.pi else p + delta

/-- Oscillator phase after `n` frames with per-frame increment `delta`,
starting from phase `p`. -/
noncomputable def phaseAt (delta p : ℝ) (n : ℕ) : ℝ :=
  (stepPhase delta)^[n] p

/-- The generation loop of `SidetoneGen_Generate`: produces the `2*n`
interleaved output samples (left then right per frame) together with the
final phase and envelope state. -/
noncomputable def genFrames (delta volume : ℝ) (p : ℝ) (e : EnvState) :
    ℕ → List ℝ × ℝ × EnvState
  | 0 => ([], p, e)
  | n + 1 =>
    let sample := Real.sin p * volume
    let es := envStep e
    let sample2 := sample * (es.1 : ℝ)
    let rest := genFrames delta volume (stepPhase delta p) es.2 n
    (sample2 :: sample2 :: rest.1, rest.2)

/-- `SidetoneGen_Generate` from sidetonegen.c.  The caller-supplied
output buffer is a list of samples (`none` models a NULL pointer); the
result is the buffer contents after the call together with the updated
global state. -/
noncomputable def SidetoneGen_Generate (s : SidetoneState) (buffer : Option (List ℝ))
    (nsamples : ℕ) (samplerate : Int) : Option (List ℝ) × SidetoneState :=
  match buffer with
  | none => (none, s)
  | some buf =>
    if s.buffer_allocated = false then (some buf, s)
    else
      match s.getFreq, s.getVolume with
      | some f, some v =>
        let delta := 2 * Real.pi * (f : ℝ) / (samplerate : ℝ)
        let r := genFrames delta v s.phase (envOf s) nsamples
        (some (r.1 ++ buf.drop (2 * nsamples)),
         { s with phase := r.2.1, fade_state := r.2.2.fade_state,
                  fade_counter := r.2.2.fade_counter })
      | _, _ =>
        (some (List.replicate (2 * nsamples) (0 : ℝ) ++ buf.drop (2 * nsamples)), s)

/-- `x mod y` on the reals: `x - y * ⌊x / y⌋`. -/
noncomputable def realMod (x y : ℝ) : ℝ := x - y * (⌊x / y⌋ : ℤ)

/-- A concrete, fully initialized idle state used to instantiate theorems. -/
noncomputable def s₀ : SidetoneState :=
  { tx_active := 0, phase := 0, fade_state := 0, fade_counter := 0,
    buffer_allocated := true, blocksize := 512,
    getEnabled := some 1, getFreq := some 600, getVolume := some (1 / 2) }

/-! ### Envelope state machine lemmas -/

lemma envStep_fadeIn_mid (n : Int) (h : n + 1 < 48) :
    envStep ⟨1, n⟩ = ((n : ℚ) / 48, ⟨1, n + 1⟩) := by
  have h' : ¬ (n + 1 ≥ (48 : Int)) := by omega
  simp [envStep, FADE_SAMPLES, h']

lemma envStep_fadeIn_last :
    envStep ⟨1, 47⟩ = ((47 : ℚ) / 48, ⟨2, 48⟩) := by
  norm_num [envStep, FADE_SAMPLES]

lemma envStep_sustain (n : Int) : envStep ⟨2, n⟩ = (1, ⟨2, n⟩) := by
  norm_num [envStep]

lemma envStep_idle (n : Int) : envStep ⟨0, n⟩ = (0, ⟨0, n⟩) := by
  norm_num [envStep]

lemma envStep_fadeOut_mid (n : Int) (h : n + 1 < 48) :
    envStep ⟨3, n⟩ = (1 - (n : ℚ) / 48, ⟨3, n + 1⟩) := by
  have h' : ¬ (n + 1 ≥ (48 : Int)) := by omega
  simp [envStep, FADE_SAMPLES, h']

lemma envStep_fadeOut_last :
    envStep ⟨3, 47⟩ = (0, ⟨0, 48⟩) := by
  norm_num [envStep, FADE_SAMPLES]

lemma envAfter_zero (e : EnvState) : envAfter e 0 = e := rfl

lemma envAfter_succ (e : EnvState) (n : ℕ) :
    envAfter e (n + 1) = (envStep (envAfter e n)).2 := by
  simp [envAfter, Function.iterate_succ_apply']

/-- During fade-in from a fresh start, the counter simply counts frames
while the state stays `1`, up to and including frame 47. -/
lemma envAfter_fadeIn (i : ℕ) (h : i ≤ 47) :
    envAfter ⟨1, 0⟩ i = ⟨1, (i : Int)⟩ := by
  induction i with
  | zero => simp [envAfter]
  | succ n ih =>
    have hn : n ≤ 47 := by omega
    rw [envAfter_succ, ih hn, envStep_fadeIn_mid (n : Int) (by omega)]
    simp

/-- The envelope applied at frame `i < 48` of a fresh fade-in is `i / 48`. -/
lemma envAt_fadeIn (i : ℕ) (h : i < 48) :
    envAt ⟨1, 0⟩ i = (i : ℚ) / 48 := by
  rcases Nat.lt_or_ge i 47 with h47 | h47
  · rw [envAt, envAfter_fadeIn i (by omega), envStep_fadeIn_mid (i : Int) (by omega)]
    push_cast
    ring
  · have hi : i = 47 := by omega
    subst hi
    rw [envAt, envAfter_fadeIn 47 (by omega)]
    norm_num [envStep_fadeIn_last]

lemma envAfter_fadeIn_48 : envAfter ⟨1, 0⟩ 48 = ⟨2, 48⟩ := by
  rw [show (48 : ℕ) = 47 + 1 from rfl, envAfter_succ, envAfter_fadeIn 47 (by omega)]
  norm_num [envStep_fadeIn_last]

/-- During fade-out from a fresh start, the counter counts frames while
the state stays `3`, up to and including frame 47. -/
lemma envAfter_fadeOut (i : ℕ) (h : i ≤ 47) :
    envAfter ⟨3, 0⟩ i = ⟨3, (i : Int)⟩ := by
  induction i with
  | zero => simp [envAfter]
  | succ n ih =>
    have hn : n ≤ 47 := by omega
    rw [envAfter_succ, ih hn, envStep_fadeOut_mid (n : Int) (by omega)]
    simp

/-- The envelope applied at frame `i < 47` of a fresh fade-out is `1 - i / 48`. -/
lemma envAt_fadeOut (i : ℕ) (h : i < 47) :
    envAt ⟨3, 0⟩ i = 1 - (i : ℚ) / 48 := by
  rw [envAt, envAfter_fadeOut i (by omega), envStep_fadeOut_mid (i : Int) (by omega)]
  push_cast
  ring

lemma envAt_fadeOut_47 : envAt ⟨3, 0⟩ 47 = 0 := by
  rw [envAt, envAfter_fadeOut 47 (by omega)]
  norm_num [envStep_fadeOut_last]

lemma envAfter_fadeOut_48 : envAfter ⟨3, 0⟩ 48 = ⟨0, 48⟩ := by
  rw [show (48 : ℕ) = 47 + 1 from rfl, envAfter_succ, envAfter_fadeOut 47 (by omega)]
  norm_num [envStep_fadeOut_last]

lemma envAt_fadeOut_48 : envAt ⟨3, 0⟩ 48 = 0 := by
  rw [envAt, envAfter_fadeOut_48]
  norm_num [envStep_idle]

/-! ### Claim theorems -/

/-- C3: starting from `Idle`, after a transmit-active transition, the
envelope applied at frame `i` equals `i / 48` for every `i < 48`
(`fade_length = 48`), and at frame 48 the state is Sustain (2) with
envelope exactly 1. -/
theorem fadeIn_ramp (s : SidetoneState) (_hidle : s.fade_state = 0)
    (htx : s.tx_active = 0) :
    (∀ i : ℕ, i < 48 →
       envAt (envOf (SidetoneGen_SetTXActive 1 s)) i = (i : ℚ) / 48) ∧
    (envAfter (envOf (SidetoneGen_SetTXActive 1 s)) 48).fade_state = 2 ∧
    envAt (envOf (SidetoneGen_SetTXActive 1 s)) 48 = 1 := by
  have hset : envOf (SidetoneGen_SetTXActive 1 s) = ⟨1, 0⟩ := by
    simp [SidetoneGen_SetTXActive, htx, envOf]
  rw [hset]
  refine ⟨fun i hi => envAt_fadeIn i hi, ?_, ?_⟩
  · rw [envAfter_fadeIn_48]
  · rw [envAt, envAfter_fadeIn_48]
    norm_num [envStep_sustain]

/-- Witness for C3 at the concrete idle state `s₀`. -/
theorem fadeIn_ramp_witness :
    (∀ i : ℕ, i < 48 →
       envAt (envOf (SidetoneGen_SetTXActive 1 s₀)) i = (i : ℚ) / 48) ∧
    (envAfter (envOf (SidetoneGen_SetTXActive 1 s₀)) 48).fade_state = 2 ∧
    envAt (envOf (SidetoneGen_SetTXActive 1 s₀)) 48 = 1 :=
  fadeIn_ramp s₀ rfl rfl

/-! ### Bridging the generation loop to the envelope and phase iterates -/

lemma envAfter_succ_left (e : EnvState) (n : ℕ) :
    envAfter e (n + 1) = envAfter (envStep e).2 n := by
  simp [envAfter, Function.iterate_succ_apply]

lemma phaseAt_succ_left (delta p : ℝ) (n : ℕ) :
    phaseAt delta p (n + 1) = phaseAt delta (stepPhase delta p) n := by
  simp [phaseAt, Function.iterate_succ_apply]

lemma phaseAt_succ (delta p : ℝ) (n : ℕ) :
    phaseAt delta p (n + 1) = stepPhase delta (phaseAt delta p n) := by
  simp [phaseAt, Function.iterate_succ_apply']

lemma genFrames_envState (delta v p : ℝ) (e : EnvState) (n : ℕ) :
    (genFrames delta v p e n).2.2 = envAfter e n := by
  induction n generalizing p e with
  | zero => rfl
  | succ m ih => rw [genFrames, envAfter_succ_left]; exact ih _ _

lemma genFrames_phase (delta v p : ℝ) (e : EnvState) (n : ℕ) :
    (genFrames delta v p e n).2.1 = phaseAt delta p n := by
  induction n generalizing p e with
  | zero => rfl
  | succ m ih => rw [genFrames, phaseAt_succ_left]; exact ih _ _

lemma genFrames_length (delta v p : ℝ) (e : EnvState) (n : ℕ) :
    (genFrames delta v p e n).1.length = 2 * n := by
  induction n generalizing p e with
  | zero => rfl
  | succ m ih =>
    rw [genFrames]
    simp only [List.length_cons, ih]
    omega

/-- The state returned by a successful `SidetoneGen_Generate` call:
phase and envelope advance by `n` frames, everything else is kept. -/
lemma Generate_state (s : SidetoneState) (buf : List ℝ) (n : ℕ) (sr : Int)
    (f : Int) (v : ℝ) (hb : s.buffer_allocated = true)
    (hf : s.getFreq = some f) (hv : s.getVolume = some v) :
    (SidetoneGen_Generate s (some buf) n sr).2 =
      { s with
        phase := phaseAt (2 * Real.pi * (f : ℝ) / (sr : ℝ)) s.phase n,
        fade_state := (envAfter (envOf s) n).fade_state,
        fade_counter := (envAfter (envOf s) n).fade_counter } := by
  rw [SidetoneGen_Generate]
  rw [hf, hv]
  simp [hb, genFrames_envState, genFrames_phase]

/-- The buffer returned by a successful `SidetoneGen_Generate` call. -/
lemma Generate_buffer (s : SidetoneState) (buf : List ℝ) (n : ℕ) (sr : Int)
    (f : Int) (v : ℝ) (hb : s.buffer_allocated = true)
    (hf : s.getFreq = some f) (hv : s.getVolume = some v) :
    (SidetoneGen_Generate s (some buf) n sr).1 =
      some ((genFrames (2 * Real.pi * (f : ℝ) / (sr : ℝ)) v s.phase (envOf s) n).1
            ++ buf.drop (2 * n)) := by
  rw [SidetoneGen_Generate]
  rw [hf, hv]
  simp [hb]

/-- C2 counterexample: with fade-out freshly entered (state 3, counter
0), the envelope applied at frame 47 is forced to 0 by the code, not
`1 - 47/48 = 1/48` as the claim would have it. -/
theorem fadeOut_ramp_cex :
    envAt ⟨3, 0⟩ 47 ≠ 1 - (47 : ℚ) / 48 := by
  rw [envAt_fadeOut_47]
  norm_num

/-- C2 amended: during a fresh fade-out the envelope at frame `i` equals
`1 - i/48` only for `i < 47`; at frame 47 (the frame on which the counter
reaches 48) the envelope is forced to exactly 0 and the state switches to
Idle (0); at frame 48 the envelope is 0 and the state is Idle. -/
theorem fadeOut_ramp :
    (∀ i : ℕ, i < 47 → envAt ⟨3, 0⟩ i = 1 - (i : ℚ) / 48) ∧
    envAt ⟨3, 0⟩ 47 = 0 ∧
    (envAfter ⟨3, 0⟩ 48).fade_state = 0 ∧
    envAt ⟨3, 0⟩ 48 = 0 := by
  refine ⟨fun i hi => envAt_fadeOut i hi, envAt_fadeOut_47, ?_, envAt_fadeOut_48⟩
  rw [envAfter_fadeOut_48]

/-- Witness for C2 (amended) at the concrete frame 5. -/
theorem fadeOut_ramp_witness :
    envAt ⟨3, 0⟩ 5 = 1 - (5 : ℚ) / 48 :=
  fadeOut_ramp.1 5 (by omega)

/-- C1 counterexample: from idle, activate transmit, generate 2 frames
(the last fade-in envelope computed is `1/48`), deactivate transmit; the
first fade-out frame then has envelope 1, not `1/48`. -/
theorem interrupted_fade_cex :
    envAt (envOf (SidetoneGen_SetTXActive 0
        (SidetoneGen_Generate (SidetoneGen_SetTXActive 1 s₀)
          (some (List.replicate 8 0)) 2 48000).2)) 0 ≠
      envAt (envOf (SidetoneGen_SetTXActive 1 s₀)) 1 := by
  have h1 : SidetoneGen_SetTXActive 1 s₀ =
      { s₀ with tx_active := 1, phase := 0, fade_state := 1, fade_counter := 0 } := by
    rw [SidetoneGen_SetTXActive]
    norm_num [s₀]
  have h2 : (SidetoneGen_Generate (SidetoneGen_SetTXActive 1 s₀)
        (some (List.replicate 8 0)) 2 48000).2 =
      { s₀ with
        tx_active := 1,
        phase := phaseAt (2 * Real.pi * ((600 : Int) : ℝ) / ((48000 : Int) : ℝ)) 0 2,
        fade_state := 1,
        fade_counter := 2 } := by
    rw [h1]
    rw [Generate_state _ _ _ _ 600 (1 / 2) rfl rfl rfl]
    have he : envAfter (envOf { s₀ with
        tx_active := 1,
        phase := (0 : ℝ),
        fade_state := 1,
        fade_counter := 0 }) 2 = ⟨1, 2⟩ := by
      have hz : envOf { s₀ with
          tx_active := 1,
          phase := (0 : ℝ),
          fade_state := 1,
          fade_counter := 0 } = ⟨1, 0⟩ := rfl
      rw [hz]
      exact envAfter_fadeIn 2 (by omega)
    rw [he]
  rw [h2, h1]
  have h3 : envOf (SidetoneGen_SetTXActive 0
      { s₀ with
        tx_active := 1,
        phase := phaseAt (2 * Real.pi * ((600 : Int) : ℝ) / ((48000 : Int) : ℝ)) 0 2,
        fade_state := 1,
        fade_counter := 2 }) = ⟨3, 0⟩ := by
    rw [SidetoneGen_SetTXActive]
    norm_num [envOf]
  rw [h3]
  have h4 : envOf { s₀ with
      tx_active := 1,
      phase := (0 : ℝ),
      fade_state := 1,
      fade_counter := 0 } = ⟨1, 0⟩ := rfl
  rw [h4, envAt_fadeIn 1 (by omega)]
  have h5 : envAt ⟨3, 0⟩ 0 = 1 := by
    rw [envAt, envAfter_zero, envStep_fadeOut_mid 0 (by omega)]
    norm_num
  rw [h5]
  norm_num

/-- C1 amended: deactivating transmit mid-fade-in (state 1, transmit
still active) enters fade-out with the counter reset to 0, so the first
fade-out frame has envelope exactly 1, regardless of the partial fade-in
value reached. -/
theorem interrupted_fade (s : SidetoneState) (_hfi : s.fade_state = 1)
    (htx : s.tx_active ≠ 0) :
    envOf (SidetoneGen_SetTXActive 0 s) = ⟨3, 0⟩ ∧
    envAt (envOf (SidetoneGen_SetTXActive 0 s)) 0 = 1 := by
  have h : envOf (SidetoneGen_SetTXActive 0 s) = ⟨3, 0⟩ := by
    rw [SidetoneGen_SetTXActive]
    simp [htx, envOf]
  refine ⟨h, ?_⟩
  rw [h, envAt, envAfter_zero, envStep_fadeOut_mid 0 (by omega)]
  norm_num

/-- Witness for C1 (amended) at a concrete mid-fade-in state. -/
theorem interrupted_fade_witness :
    envOf (SidetoneGen_SetTXActive 0
      { s₀ with tx_active := 1, fade_state := 1, fade_counter := 2 }) = ⟨3, 0⟩ ∧
    envAt (envOf (SidetoneGen_SetTXActive 0
      { s₀ with tx_active := 1, fade_state := 1, fade_counter := 2 })) 0 = 1 :=
  interrupted_fade _ rfl (by norm_num)

/-- C7: `SidetoneGen_IsActive` is nonzero iff `tx_active` is nonzero and
the enabled callback reports a nonzero value; with no enabled callback it
returns 0; and it never depends on the envelope state or counter. -/
theorem isActive_spec (s : SidetoneState) :
    (SidetoneGen_IsActive s ≠ 0 ↔
       s.tx_active ≠ 0 ∧ ∃ e, s.getEnabled = some e ∧ e ≠ 0) ∧
    (s.getEnabled = none → SidetoneGen_IsActive s = 0) ∧
    (∀ fs fc : Int,
       SidetoneGen_IsActive { s with fade_state := fs, fade_counter := fc } =
         SidetoneGen_IsActive s) := by
  refine ⟨?_, ?_, fun fs fc => rfl⟩
  · by_cases h : s.tx_active = 0
    · simp [SidetoneGen_IsActive, h]
    · cases he : s.getEnabled with
      | none => simp [SidetoneGen_IsActive, h, he]
      | some e => simp [SidetoneGen_IsActive, h, he]
  · intro he
    simp [SidetoneGen_IsActive, he]

/-- Witness for C7: with transmit on and the enabled callback reporting
1, the concrete state reports active. -/
theorem isActive_spec_witness :
    SidetoneGen_IsActive { s₀ with tx_active := 1 } ≠ 0 :=
  (isActive_spec { s₀ with tx_active := 1 }).1.mpr
    ⟨by norm_num, 1, rfl, by norm_num⟩

/-- C8: `SidetoneGen_SetTXActive 1` applied twice gives the same state as
applying it once, and in general a call with an unchanged transmit value
is a no-op. -/
theorem setTXActive_idempotent (s : SidetoneState) (v : Int) :
    SidetoneGen_SetTXActive 1 (SidetoneGen_SetTXActive 1 s) =
      SidetoneGen_SetTXActive 1 s ∧
    (s.tx_active = v → SidetoneGen_SetTXActive v s = s) := by
  constructor
  · by_cases h : s.tx_active = 1
    · simp [SidetoneGen_SetTXActive, h]
    · simp [SidetoneGen_SetTXActive, h]
  · intro hv
    simp [SidetoneGen_SetTXActive, hv]

/-- Witness for C8 at the concrete idle state (repeated transmit value 0). -/
theorem setTXActive_idempotent_witness :
    SidetoneGen_SetTXActive 0 s₀ = s₀ :=
  (setTXActive_idempotent s₀ 0).2 rfl

/-- C10: a `SidetoneGen_SetTXActive` call with a nonzero value other
than 1 (and different from the stored one) takes the deactivation branch:
fade-out starts, the counter resets, the phase is untouched, the nonzero
value is stored as `tx_active`, and `SidetoneGen_IsActive` can then still
report active. -/
theorem setTXActive_nonunit (s : SidetoneState) (v : Int) (hv0 : v ≠ 0)
    (hv1 : v ≠ 1) (hne : s.tx_active ≠ v) :
    SidetoneGen_SetTXActive v s =
      { s with tx_active := v, fade_state := 3, fade_counter := 0 } ∧
    (SidetoneGen_SetTXActive v s).phase = s.phase ∧
    (∀ e : Int, s.getEnabled = some e → e ≠ 0 →
       SidetoneGen_IsActive (SidetoneGen_SetTXActive v s) ≠ 0) := by
  have h : SidetoneGen_SetTXActive v s =
      { s with tx_active := v, fade_state := 3, fade_counter := 0 } := by
    simp [SidetoneGen_SetTXActive, hne, hv1]
  refine ⟨h, by rw [h], ?_⟩
  intro e he hene
  rw [h]
  simp [SidetoneGen_IsActive, hv0, he, hene]

/-- Witness for C10 with `v = 2` at the concrete idle state. -/
theorem setTXActive_nonunit_witness :
    SidetoneGen_SetTXActive 2 s₀ =
      { s₀ with tx_active := 2, fade_state := 3, fade_counter := 0 } ∧
    (SidetoneGen_SetTXActive 2 s₀).phase = s₀.phase ∧
    (∀ e : Int, s₀.getEnabled = some e → e ≠ 0 →
       SidetoneGen_IsActive (SidetoneGen_SetTXActive 2 s₀) ≠ 0) :=
  setTXActive_nonunit s₀ 2 (by norm_num) (by norm_num) (by norm_num [s₀])

/-- C9: with a NULL output buffer or an uninitialized generator (missing
internal buffer), `SidetoneGen_Generate` is a no-op: the buffer and the
whole state are returned unchanged. -/
theorem generate_noop (s : SidetoneState) (buffer : Option (List ℝ)) (n : ℕ)
    (sr : Int) (h : buffer = none ∨ s.buffer_allocated = false) :
    SidetoneGen_Generate s buffer n sr = (buffer, s) := by
  rcases h with h | h
  · subst h
    rfl
  · cases buffer with
    | none => rfl
    | some buf => simp [SidetoneGen_Generate, h]

/-- Witness for C9 with a NULL buffer at the concrete idle state. -/
theorem generate_noop_witness :
    SidetoneGen_Generate s₀ none 4 48000 = (none, s₀) :=
  generate_noop s₀ none 4 48000 (Or.inl rfl)

lemma getD_zero_of_replicate_append (m j : ℕ) (l : List ℝ) (hj : j < m) :
    (List.replicate m (0 : ℝ) ++ l).getD j 1 = 0 := by
  induction m generalizing j l with
  | zero => omega
  | succ k ih =>
    rw [List.replicate_succ]
    cases j with
    | zero => rfl
    | succ j' =>
      rw [List.cons_append, List.getD_cons_succ]
      exact ih j' l (by omega)

/-- C4: with the generator initialized and the buffer non-null but no
parameter callbacks registered, `SidetoneGen_Generate` zeroes all `2*n`
output samples and leaves the state completely unchanged. -/
theorem generate_silence (s : SidetoneState) (buf : List ℝ) (n : ℕ) (sr : Int)
    (hb : s.buffer_allocated = true) (_he : s.getEnabled = none)
    (hf : s.getFreq = none) (_hv : s.getVolume = none) :
    SidetoneGen_Generate s (some buf) n sr =
      (some (List.replicate (2 * n) (0 : ℝ) ++ buf.drop (2 * n)), s) ∧
    (∀ j : ℕ, j < 2 * n →
       (List.replicate (2 * n) (0 : ℝ) ++ buf.drop (2 * n)).getD j 1 = 0) := by
  constructor
  · rw [SidetoneGen_Generate, hf]
    simp [hb]
  · intro j hj
    exact getD_zero_of_replicate_append (2 * n) j _ hj

/-- Witness for C4: a provider-less state zeroes a 4-sample buffer. -/
theorem generate_silence_witness :
    SidetoneGen_Generate
        { s₀ with getEnabled := none, getFreq := none, getVolume := none }
        (some [1, 2, 3, 4]) 2 48000 =
      (some (List.replicate 4 (0 : ℝ) ++ ([1, 2, 3, 4] : List ℝ).drop 4),
       { s₀ with getEnabled := none, getFreq := none, getVolume := none }) ∧
    (∀ j : ℕ, j < 4 →
       (List.replicate 4 (0 : ℝ) ++ ([1, 2, 3, 4] : List ℝ).drop 4).getD j 1 = 0) :=
  generate_silence { s₀ with getEnabled := none, getFreq := none, getVolume := none }
    [1, 2, 3, 4] 2 48000 rfl rfl rfl rfl

lemma envAt_succ_left (e : EnvState) (n : ℕ) :
    envAt e (n + 1) = envAt (envStep e).2 n := by
  rw [envAt, envAt, envAfter_succ_left]

/-- The sample written by the generation loop at interleaved positions
`2*i` and `2*i+1` is `sin(phase_i) * volume * envelope_i`. -/
lemma genFrames_getD (delta v p : ℝ) (e : EnvState) (n i : ℕ) (hi : i < n) :
    (genFrames delta v p e n).1.getD (2 * i) 0 =
      Real.sin (phaseAt delta p i) * v * ((envAt e i : ℚ) : ℝ) ∧
    (genFrames delta v p e n).1.getD (2 * i + 1) 0 =
      Real.sin (phaseAt delta p i) * v * ((envAt e i : ℚ) : ℝ) := by
  induction n generalizing p e i with
  | zero => omega
  | succ m ih =>
    cases i with
    | zero =>
      constructor
      · rfl
      · rfl
    | succ j =>
      have h2 : 2 * (j + 1) = 2 * j + 1 + 1 := by ring
      rw [genFrames, h2]
      simp only [List.getD_cons_succ]
      rw [phaseAt_succ_left, envAt_succ_left]
      exact ih (stepPhase delta p) (envStep e).2 j (by omega)

/-- C6: every frame `i < n` of a successful `SidetoneGen_Generate` call
writes the identical value `sin(phase_i) * volume * envelope_i` to output
positions `2*i` (left) and `2*i+1` (right), where `phase_i` is the phase
before the increment of frame `i` and `volume` was pulled once from the
volume callback. -/
theorem generate_stereo_sample (s : SidetoneState) (buf : List ℝ) (n : ℕ)
    (sr : Int) (f : Int) (v : ℝ) (hb : s.buffer_allocated = true)
    (hf : s.getFreq = some f) (hv : s.getVolume = some v)
    (i : ℕ) (hi : i < n) :
    ∃ out, (SidetoneGen_Generate s (some buf) n sr).1 = some out ∧
      out.getD (2 * i) 0 =
        Real.sin (phaseAt (2 * Real.pi * (f : ℝ) / (sr : ℝ)) s.phase i) * v *
          ((envAt (envOf s) i : ℚ) : ℝ) ∧
      out.getD (2 * i + 1) 0 =
        Real.sin (phaseAt (2 * Real.pi * (f : ℝ) / (sr : ℝ)) s.phase i) * v *
          ((envAt (envOf s) i : ℚ) : ℝ) := by
  refine ⟨_, Generate_buffer s buf n sr f v hb hf hv, ?_, ?_⟩
  · rw [List.getD_append _ _ _ _ (by rw [genFrames_length]; omega)]
    exact (genFrames_getD _ _ _ _ n i hi).1
  · rw [List.getD_append _ _ _ _ (by rw [genFrames_length]; omega)]
    exact (genFrames_getD _ _ _ _ n i hi).2

/-- Witness for C6: first frame of a one-frame block at the concrete
idle state. -/
theorem generate_stereo_sample_witness :
    ∃ out, (SidetoneGen_Generate s₀ (some []) 1 48000).1 = some out ∧
      out.getD 0 0 =
        Real.sin (phaseAt (2 * Real.pi * ((600 : Int) : ℝ) / ((48000 : Int) : ℝ))
            s₀.phase 0) * (1 / 2) * ((envAt (envOf s₀) 0 : ℚ) : ℝ) ∧
      out.getD 1 0 =
        Real.sin (phaseAt (2 * Real.pi * ((600 : Int) : ℝ) / ((48000 : Int) : ℝ))
            s₀.phase 0) * (1 / 2) * ((envAt (envOf s₀) 0 : ℚ) : ℝ) := by
  have h := generate_stereo_sample s₀ [] 1 48000 600 (1 / 2) rfl rfl rfl 0 (by omega)
  simpa using h

/-! ### Phase wraparound -/

lemma realMod_eq_self {x y : ℝ} (hy : 0 < y) (h0 : 0 ≤ x) (h1 : x < y) :
    realMod x y = x := by
  rw [realMod]
  have hfl : ⌊x / y⌋ = 0 := by
    rw [Int.floor_eq_zero_iff]
    exact Set.mem_Ico.mpr ⟨div_nonneg h0 hy.le, (div_lt_one hy).mpr h1⟩
  rw [hfl]
  simp

lemma realMod_add_mul_left {x y : ℝ} (hy : y ≠ 0) (m : ℤ) :
    realMod (x + y * (m : ℝ)) y = realMod x y := by
  rw [realMod, realMod]
  have hdiv : (x + y * (m : ℝ)) / y = x / y + (m : ℝ) := by
    field_simp
    ring
  rw [hdiv, Int.floor_add_int]
  push_cast
  ring

/-- Invariant of the wrap-around oscillator: starting from phase 0 with
a per-frame increment `delta ∈ [0, 2π)`, the phase after `k` frames is
`(k * delta) mod 2π`, and it stays inside `[0, 2π)`. -/
lemma phaseAt_mod (delta : ℝ) (h0 : 0 ≤ delta) (h2 : delta < 2 * Real.pi)
    (k : ℕ) :
    phaseAt delta 0 k = realMod ((k : ℝ) * delta) (2 * Real.pi) ∧
    0 ≤ phaseAt delta 0 k ∧ phaseAt delta 0 k < 2 * Real.pi := by
  have hπ : (0 : ℝ) < 2 * Real.pi := Real.two_pi_pos
  induction k with
  | zero =>
    refine ⟨?_, le_refl _, hπ⟩
    rw [phaseAt]
    simp [realMod_eq_self hπ (le_refl (0 : ℝ)) hπ]
  | succ m ih =>
    obtain ⟨hmod, hge, hlt⟩ := ih
    set M : ℤ := ⌊((m : ℝ)) * delta / (2 * Real.pi)⌋ with hM
    have hkd : ((m : ℝ)) * delta =
        phaseAt delta 0 m + (2 * Real.pi) * (M : ℝ) := by
      rw [hmod, realMod, ← hM]
      ring
    have hmul : ((m : ℝ) + 1) * delta =
        phaseAt delta 0 m + (2 * Real.pi) * (M : ℝ) + delta := by
      rw [add_mul, one_mul, hkd]
    rw [phaseAt_succ]
    rw [stepPhase]
    by_cases hc : phaseAt delta 0 m + delta ≥ 2 * Real.pi
    · rw [if_pos hc]
      have hsum : ((m : ℝ) + 1) * delta =
          (phaseAt delta 0 m + delta - 2 * Real.pi) +
            (2 * Real.pi) * ((M + 1 : ℤ) : ℝ) := by
        rw [hmul]
        push_cast
        ring
      have hb0 : 0 ≤ phaseAt delta 0 m + delta - 2 * Real.pi := by linarith
      have hb1 : phaseAt delta 0 m + delta - 2 * Real.pi < 2 * Real.pi := by linarith
      refine ⟨?_, hb0, hb1⟩
      push_cast
      rw [hsum]
      rw [realMod_add_mul_left (ne_of_gt hπ)]
      rw [realMod_eq_self hπ hb0 hb1]
    · rw [if_neg hc]
      push_neg at hc
      have hsum : ((m : ℝ) + 1) * delta =
          (phaseAt delta 0 m + delta) + (2 * Real.pi) * ((M : ℤ) : ℝ) := by
        rw [hmul]
        ring
      have hb0 : 0 ≤ phaseAt delta 0 m + delta := by linarith
      refine ⟨?_, hb0, hc⟩
      push_cast
      rw [hsum]
      rw [realMod_add_mul_left (ne_of_gt hπ)]
      rw [realMod_eq_self hπ hb0 hc]

/-- C5 counterexample: for a negative frequency (here `f = -1` at sample
rate 1, so `delta = -2π < 2π`), the phase after one generated frame is
`-2π`, not `(1 * delta) mod 2π = 0`: the claim needs `delta ≥ 0`. -/
theorem phase_wrap_cex :
    (SidetoneGen_Generate { s₀ with getFreq := some (-1) }
        (some [0, 0]) 1 1).2.phase ≠
      realMod ((1 : ℕ) * (2 * Real.pi * ((-1 : Int) : ℝ) / ((1 : Int) : ℝ)))
        (2 * Real.pi) := by
  have hδ : 2 * Real.pi * ((-1 : Int) : ℝ) / ((1 : Int) : ℝ) = -(2 * Real.pi) := by
    push_cast
    ring
  have hstate := Generate_state { s₀ with getFreq := some (-1) } [0, 0] 1 1
    (-1) (1 / 2) rfl rfl rfl
  rw [hstate]
  have hphase : ({ s₀ with getFreq := some (-1) } : SidetoneState).phase = 0 := rfl
  show phaseAt (2 * Real.pi * ((-1 : Int) : ℝ) / ((1 : Int) : ℝ)) 0 1 ≠ _
  rw [hδ]
  have hlhs : phaseAt (-(2 * Real.pi)) 0 1 = -(2 * Real.pi) := by
    rw [phaseAt]
    rw [Function.iterate_one]
    rw [stepPhase]
    rw [if_neg (by nlinarith [Real.pi_pos])]
    ring
  have hrhs : realMod ((1 : ℕ) * -(2 * Real.pi)) (2 * Real.pi) = 0 := by
    rw [realMod]
    have h1 : ((1 : ℕ) : ℝ) * -(2 * Real.pi) = -(2 * Real.pi) := by
      push_cast
      ring
    rw [h1]
    have hdiv : -(2 * Real.pi) / (2 * Real.pi) = (-1 : ℝ) := by
      rw [neg_div, div_self (ne_of_gt Real.two_pi_pos)]
    rw [hdiv]
    have hfl : ⌊(-1 : ℝ)⌋ = -1 := by
      rw [show (-1 : ℝ) = ((-1 : ℤ) : ℝ) by push_cast; ring, Int.floor_intCast]
    rw [hfl]
    push_cast
    ring
  rw [hlhs, hrhs]
  have := Real.pi_pos
  intro hcontra
  nlinarith

/-- C5 amended: with a nonnegative per-frame increment
`delta = 2π * f / sr < 2π`, generating `k` frames from phase 0 leaves the
phase at `(k * delta) mod 2π`, and the phase stays renormalized inside
`[0, 2π)` after every per-frame increment. -/
theorem phase_wrap (s : SidetoneState) (buf : List ℝ) (k : ℕ) (sr f : Int)
    (v : ℝ) (hb : s.buffer_allocated = true) (hf : s.getFreq = some f)
    (hv : s.getVolume = some v) (hp : s.phase = 0)
    (hδ0 : 0 ≤ 2 * Real.pi * (f : ℝ) / (sr : ℝ))
    (hδ2 : 2 * Real.pi * (f : ℝ) / (sr : ℝ) < 2 * Real.pi) :
    (SidetoneGen_Generate s (some buf) k sr).2.phase =
      realMod ((k : ℝ) * (2 * Real.pi * (f : ℝ) / (sr : ℝ))) (2 * Real.pi) ∧
    (∀ j : ℕ, 0 ≤ phaseAt (2 * Real.pi * (f : ℝ) / (sr : ℝ)) 0 j ∧
       phaseAt (2 * Real.pi * (f : ℝ) / (sr : ℝ)) 0 j < 2 * Real.pi) := by
  have hstate := Generate_state s buf k sr f v hb hf hv
  constructor
  · rw [hstate]
    show phaseAt _ s.phase k = _
    rw [hp]
    exact (phaseAt_mod _ hδ0 hδ2 k).1
  · intro j
    exact (phaseAt_mod _ hδ0 hδ2 j).2

/-- Witness for C5 (amended) at the concrete state (600 Hz, 48 kHz,
3 frames). -/
theorem phase_wrap_witness :
    (SidetoneGen_Generate s₀ (some [0, 0]) 3 48000).2.phase =
      realMod ((3 : ℕ) * (2 * Real.pi * ((600 : Int) : ℝ) / ((48000 : Int) : ℝ)))
        (2 * Real.pi) ∧
    (∀ j : ℕ, 0 ≤ phaseAt (2 * Real.pi * ((600 : Int) : ℝ) / ((48000 : Int) : ℝ)) 0 j ∧
       phaseAt (2 * Real.pi * ((600 : Int) : ℝ) / ((48000 : Int) : ℝ)) 0 j
         < 2 * Real.pi) :=
  phase_wrap s₀ [0, 0] 3 48000 600 (1 / 2) rfl rfl rfl rfl
    (by positivity)
    (by nlinarith [Real.pi_pos])

end Sidetone
